import Mathlib

/-!
Span Explainer — verification of the specified core.

Shallow embedding of the Go backend of `span-explainer`:

* `internal/llm/llm.go` — output validation (`ParseResult`, `ParseExplainResult`)
  and prompt composition (`buildPrompt`, `writeSpanContext`, `isNumericValue`);
* `internal/trace/tracectx.go` — `BuildTraceIndex`, `getServiceName`;
* `internal/trace/buildctx.go` — `BuildExplainContext`, `buildSpanContext`;
* the `findSpan` / `findChildren` helpers of the `trace` package;
* `internal/otel_validator/validate.go` — `ValidateOTLPTraces`, `isValidSpan`;
* `internal/server/server.go` — the `queryLLM` handler's branch structure.

Go maps are embedded as functions `String → Option _` (zero values recovered
with `Option.getD`), Go slices as `List`, and the result of `json.Unmarshal`
into a struct as an explicit decoder over a JSON value tree `JValue`
(mirroring Go's semantics: field names matched exactly or case-insensitively
per `bytes.EqualFold`, absent field ⇒ zero value, `null` ⇒ field left
unchanged with no error, wrong type ⇒ `UnmarshalTypeError`, first error kept
while decoding continues, later duplicate keys overwrite earlier ones).
The byte-level JSON parser itself is external to the embedding: a parse
outcome is passed in as `Option` / `Except`.
-/

namespace SpanExplainer

/-! ## JSON value trees (the image of Go's `encoding/json` on untyped data) -/

/-- A parsed JSON document.  Numbers are irrelevant to every property proved
here beyond "not a string", so they are carried as `Int`. -/
inductive JValue where
  | jstr (s : String)
  | jnum (n : Int)
  | jbool (b : Bool)
  | jnull
  | jarr (elems : List JValue)
  | jobj (fields : List (String × JValue))

/-- The three-field result struct of `internal/llm/types.go`. -/
structure ExplainResult where
  root_cause : String
  impact : String
  suggested_action : String
deriving DecidableEq, Repr

/-- Whether a key character fold-matches a character `c` of one of the
struct's field tags, per Go's `bytes.EqualFold` (Unicode simple case
folding).  The three tags are lowercase ASCII, so the simple-fold orbit of
each tag character is `{c, toUpper c}`, except that the orbit of `s` also
contains the long s `ſ` (U+017F) and the orbit of `k` also contains the
Kelvin sign (U+212A); every other rune folds only within ASCII case or to
itself. -/
def foldEqChar (r c : Char) : Bool :=
  r = c || r.toLower = c ||
    (c = 's' && r = Char.ofNat 0x17F) || (c = 'k' && r = Char.ofNat 0x212A)

def foldEqList : List Char → List Char → Bool
  | [], [] => true
  | r :: rs, c :: cs => foldEqChar r c && foldEqList rs cs
  | _, _ => false

/-- Go's JSON field-name matching of an object key `k` against a
(lowercase-ASCII) field tag: `json.Unmarshal` prefers an exact match but
also accepts a case-insensitive one via `bytes.EqualFold`.  The three tags
are pairwise non-fold-equal, so each key matches at most one field and the
exact-first preference cannot change the outcome. -/
def keyMatches (k tag : String) : Bool :=
  foldEqList k.data tag.data

/-- One step of Go's `json.Unmarshal` into `ExplainResult`, processing a
single key/value pair of the top-level object: a key matching a field tag
(exactly or case-insensitively, `keyMatches`) is decoded into that field
(string sets it, `null` leaves it unchanged, anything else is an
`UnmarshalTypeError`, of which only the first is kept while decoding
continues), an unmatched key is skipped. -/
def decodeStep (st : ExplainResult × Option String) (field : String × JValue) :
    ExplainResult × Option String :=
  let r := st.1
  let e := st.2
  let k := field.1
  let v := field.2
  if keyMatches k "root_cause" then
    match v with
    | .jstr s => ({ r with root_cause := s }, e)
    | .jnull => (r, e)
    | _ => (r, some (e.getD "cannot unmarshal value into field root_cause of type string"))
  else if keyMatches k "impact" then
    match v with
    | .jstr s => ({ r with impact := s }, e)
    | .jnull => (r, e)
    | _ => (r, some (e.getD "cannot unmarshal value into field impact of type string"))
  else if keyMatches k "suggested_action" then
    match v with
    | .jstr s => ({ r with suggested_action := s }, e)
    | .jnull => (r, e)
    | _ => (r, some (e.getD "cannot unmarshal value into field suggested_action of type string"))
  else
    (r, e)

/-- Go's `json.Unmarshal([]byte(response), &result)` for `result : ExplainResult`,
on an already-parsed JSON value: a top-level object is folded field by field
(`decodeStep`), a top-level `null` is a no-op that leaves the zero value, and
any other top-level shape is an `UnmarshalTypeError`. -/
def decodeExplainResult (v : JValue) : Except String ExplainResult :=
  match v with
  | .jobj fields =>
    let st := fields.foldl decodeStep (⟨"", "", ""⟩, none)
    match st.2 with
    | some msg => .error msg
    | none => .ok st.1
  | .jnull => .ok ⟨"", "", ""⟩
  | _ => .error "cannot unmarshal value into type ExplainResult"

/-- Embedding of `ParseExplainResult` (llm.go): unmarshal the (already extracted) response,
wrapping any decode failure.  The argument is the outcome of parsing the raw
response text into a JSON tree; `.error` is a syntax failure of that external
parse. -/
def ParseExplainResult (resp : Except String JValue) : Except String ExplainResult :=
  match resp with
  | .error m => .error ("failed to parse explain result: " ++ m)
  | .ok v =>
    match decodeExplainResult v with
    | .error m => .error ("failed to parse explain result: " ++ m)
    | .ok r => .ok r

/-- The two typed failures of the output validator (§4.5 taxonomy):
decode failure and empty/missing required field. -/
inductive PError where
  | malformedOutput (msg : String)
  | missingField (name : String)
deriving DecidableEq, Repr

/-- Embedding of `ParseResult` (llm.go): strict-decode the model response, then require the
three fields non-empty, checked in source order `root_cause`, `impact`,
`suggested_action`. -/
def ParseResult (resp : Except String JValue) : Except PError ExplainResult :=
  match ParseExplainResult resp with
  | .error m => .error (.malformedOutput ("response is not valid JSON: " ++ m))
  | .ok result =>
    if result.root_cause = "" then .error (.missingField "root_cause")
    else if result.impact = "" then .error (.missingField "impact")
    else if result.suggested_action = "" then .error (.missingField "suggested_action")
    else .ok result

example :
    ParseResult (.ok (.jobj [("root_cause", .jstr "x"), ("impact", .jstr ""),
      ("suggested_action", .jstr "y")])) = .error (.missingField "impact") := rfl

example :
    ParseResult (.ok (.jobj [("root_cause", .jstr "x"), ("impact", .jstr "y")])) =
      .error (.missingField "suggested_action") := rfl

example :
    ∃ m, ParseResult (.ok (.jobj [("root_cause", .jstr "x"),
      ("impact", .jobj [("a", .jnum 1)]), ("suggested_action", .jstr "y")])) =
      .error (.malformedOutput m) := ⟨_, rfl⟩

example :
    ParseResult (.ok (.jobj [("root_cause", .jstr "x"), ("impact", .jnull),
      ("suggested_action", .jstr "y")])) = .error (.missingField "impact") := rfl

example :
    ParseResult (.ok (.jobj [("root_cause", .jstr "x"), ("Impact", .jstr "y"),
      ("suggested_action", .jstr "z")])) = .ok ⟨"x", "y", "z"⟩ := rfl

example :
    ParseResult (.ok (.jobj [("ROOT_CAUSE", .jstr "x"), ("Impact", .jstr "y"),
      ("Suggested_Action", .jstr "z")])) = .ok ⟨"x", "y", "z"⟩ := rfl

/-! ## Trace data model (`internal/trace/types.go`) -/

/-- Embedding of `Span.Status` — only the code string is carried. -/
structure SpanStatus where
  code : String
deriving DecidableEq, Repr

/-- A span event; only its name survives parsing. -/
structure Event where
  name : String
deriving DecidableEq, Repr

/-- One OTLP span as deserialized by the `trace` package.  `attributes` is a
Go `map[string]string`; it is embedded as its underlying key/value list, whose
order stands for one iteration order of the map. -/
structure Span where
  traceId : String
  spanId : String
  parentSpanId : String
  name : String
  startTime : String
  endTime : String
  status : SpanStatus
  attributes : List (String × String)
  events : List Event
deriving DecidableEq, Repr

/-- A resource attribute: key plus a typed-value union
(`map[string]interface{}` in Go, a JSON object here). -/
structure Attribute where
  key : String
  value : List (String × JValue)

structure Resource where
  attributes : List Attribute

structure ScopeSpan where
  spans : List Span

structure ResourceSpan where
  resource : Resource
  scopeSpans : List ScopeSpan

structure Trace where
  resourceSpans : List ResourceSpan

/-- Embedding of `getServiceName` (tracectx.go): scan the resource attribute list for key
`"service.name"`; on a hit try the `stringValue` entry of the typed-value
union, then the `value` entry; if neither holds a string, keep scanning;
default `""`. -/
def getServiceName : List Attribute → String
  | [] => ""
  | a :: rest =>
    if a.key = "service.name" then
      match a.value.lookup "stringValue" with
      | some (.jstr s) => s
      | _ =>
        match a.value.lookup "value" with
        | some (.jstr s) => s
        | _ => getServiceName rest
    else getServiceName rest

/-! ## Trace indexing (`BuildTraceIndex`, tracectx.go) -/

/-- The three maps built by the indexing pass.  Go maps become functions;
a missing key is `none` (for `Children`, the empty list — Go's zero-value
append target). -/
structure TraceIndex where
  SpansByID : String → Option Span
  Children : String → List Span
  ServiceBySpan : String → Option String

def emptyIndex : TraceIndex :=
  { SpansByID := fun _ => none
    Children := fun _ => []
    ServiceBySpan := fun _ => none }

/-- The body of the innermost loop of `BuildTraceIndex`, for one
(service, span) pair: record `SpansByID[spanId] = span` and
`ServiceBySpan[spanId] = service`, and if `parentSpanId` is non-empty append
the span to `Children[parentSpanId]`. -/
def indexStep (idx : TraceIndex) (p : String × Span) : TraceIndex :=
  let service := p.1
  let sp := p.2
  { SpansByID := fun k => if k = sp.spanId then some sp else idx.SpansByID k
    ServiceBySpan := fun k => if k = sp.spanId then some service else idx.ServiceBySpan k
    Children :=
      if sp.parentSpanId ≠ "" then
        fun k => if k = sp.parentSpanId then idx.Children k ++ [sp] else idx.Children k
      else idx.Children }

/-- The sequence of (resolved service name, span) pairs visited by the
nested `resourceSpans → scopeSpans → spans` loops of `BuildTraceIndex`, in
traversal order; the service name is resolved once per resource. -/
def flattenTrace (t : Trace) : List (String × Span) :=
  t.resourceSpans.flatMap fun rs =>
    let service := getServiceName rs.resource.attributes
    rs.scopeSpans.flatMap fun ss =>
      ss.spans.map fun sp => (service, sp)

/-- Embedding of `BuildTraceIndex` (tracectx.go): the single linear pass over every span,
expressed as a fold of `indexStep` over the traversal sequence. -/
def BuildTraceIndex (t : Trace) : TraceIndex :=
  (flattenTrace t).foldl indexStep emptyIndex

/-! ## Context extraction (`buildctx.go` and the `find*` helpers) -/

/-- Embedding of `SpanContext` (trace package): the projection handed to the prompt. -/
structure SpanContext where
  service : String
  operation : String
  status : String
  tags : List (String × String)
  logs : List String
deriving DecidableEq, Repr

/-- Embedding of `ExplainContext` (trace package). -/
structure ExplainContext where
  targetSpan : SpanContext
  parentSpan : Option SpanContext
  childSpans : List SpanContext
deriving DecidableEq, Repr

/-- Embedding of `findSpan`: lookup in `SpansByID` with the comma-ok idiom. -/
def findSpan (idx : TraceIndex) (spanID : String) : Option Span :=
  idx.SpansByID spanID

/-- Embedding of `findChildren`: the children recorded for `spanID`, truncated to the
first `limit` entries when there are more. -/
def findChildren (idx : TraceIndex) (spanID : String) (limit : Nat) : List Span :=
  let children := idx.Children spanID
  if children.length > limit then children.take limit else children

/-- Embedding of `buildSpanContext` (buildctx.go): project a span plus its resolved
service into a `SpanContext`; logs are the event names in order. -/
def buildSpanContext (sp : Span) (service : String) : SpanContext :=
  { service := service
    operation := sp.name
    status := sp.status.code
    tags := sp.attributes
    logs := sp.events.map (·.name) }

/-- Embedding of `BuildExplainContext` (buildctx.go).  `raw` is the outcome of
`ParseTrace` (`none` = JSON deserialization failure).  Children are capped at
the hardcoded 2.  Go's `idx.ServiceBySpan[id]` on a missing key yields the
zero value `""`, hence `Option.getD ""`. -/
def BuildExplainContext (raw : Option Trace) (targetSpanID : String) :
    Except String ExplainContext :=
  match raw with
  | none => .error "invalid trace json"
  | some t =>
    let idx := BuildTraceIndex t
    match findSpan idx targetSpanID with
    | none => .error "target span not found"
    | some target =>
      let parentCtx :=
        if target.parentSpanId ≠ "" then
          match findSpan idx target.parentSpanId with
          | some parent =>
            some (buildSpanContext parent ((idx.ServiceBySpan parent.spanId).getD ""))
          | none => none
        else none
      let children := findChildren idx target.spanId 2
      .ok
        { targetSpan := buildSpanContext target ((idx.ServiceBySpan target.spanId).getD "")
          parentSpan := parentCtx
          childSpans :=
            children.map fun ch => buildSpanContext ch ((idx.ServiceBySpan ch.spanId).getD "") }

/-! ## Payload validator (`internal/otel_validator`) -/

/-- The validator failure kinds of `internal/otel_validator/error.go`
(`InvalidSpan` carries the offending span's traceId and spanId, as formatted
into the wrapped error). -/
inductive VError where
  | invalidJSON
  | missingResourceSpans
  | invalidSpan (traceId spanId : String)
  | missingSpans
deriving DecidableEq, Repr

/-- Embedding of `isValidSpan` (validate.go): traceId, spanId and name all non-empty. -/
def isValidSpan (s : Span) : Bool :=
  !(s.traceId == "") && !(s.spanId == "") && !(s.name == "")

/-- The spans visited by the validator's nested loops, in depth-first
`resourceSpans → scopeSpans → spans` order. -/
def allSpans (t : Trace) : List Span :=
  t.resourceSpans.flatMap fun rs => rs.scopeSpans.flatMap fun ss => ss.spans

/-- The counting loop of `ValidateOTLPTraces`: increment the span count,
then return `ErrInvalidSpan` for the first invalid span; otherwise the total
count. -/
def countAndCheck : List Span → Nat → Except VError Nat
  | [], n => .ok n
  | sp :: rest, n =>
    let n' := n + 1
    if !isValidSpan sp then .error (.invalidSpan sp.traceId sp.spanId)
    else countAndCheck rest n'

/-- Embedding of `ValidateOTLPTraces` (validate.go).  The input is the outcome of
`json.Unmarshal` into `trace.Trace` (`none` = `ErrInvalidJSON`). -/
def ValidateOTLPTraces (raw : Option Trace) : Except VError Unit :=
  match raw with
  | none => .error .invalidJSON
  | some payload =>
    if payload.resourceSpans.length = 0 then .error .missingResourceSpans
    else
      match countAndCheck (allSpans payload) 0 with
      | .error e => .error e
      | .ok spanCount =>
        if spanCount = 0 then .error .missingSpans
        else .ok ()

/-- The spec's reading of §4.1, written independently of the loop: parse,
then non-empty `resourceSpans`, then the first depth-first span missing any
of traceId/spanId/name, then total span count positive. -/
def ValidateSpec (raw : Option Trace) : Except VError Unit :=
  match raw with
  | none => .error .invalidJSON
  | some payload =>
    if payload.resourceSpans.length = 0 then .error .missingResourceSpans
    else
      match (allSpans payload).find? (fun sp => !isValidSpan sp) with
      | some sp => .error (.invalidSpan sp.traceId sp.spanId)
      | none =>
        if (allSpans payload).length = 0 then .error .missingSpans
        else .ok ()

/-! ## Prompt composition (`buildPrompt` / `writeSpanContext`, llm.go)

`strings.Builder` becomes string concatenation; `strings.Contains`,
`strings.ToLower` (ASCII keys/logs) and Go's byte-length `len` are embedded
below.  A Go `range` over `map[string]string` is embedded as traversal of the
`tags` list: the list order *is* one iteration order of the map, which Go
randomizes per run.  -/

/-- Go `strings.ToLower` (the inputs used here are ASCII). -/
def strLower (s : String) : String :=
  ⟨s.data.map Char.toLower⟩

/-- Whether `pat` occurs at the head of `l`. -/
def listStarts : List Char → List Char → Bool
  | [], _ => true
  | _ :: _, [] => false
  | c :: cs, d :: ds => c = d && listStarts cs ds

/-- Whether `pat` occurs anywhere in `l`. -/
def listHas (pat : List Char) : List Char → Bool
  | [] => listStarts pat []
  | l@(_ :: rest) => listStarts pat l || listHas pat rest

/-- Go `strings.Contains s pat`. -/
def strContainsSub (s pat : String) : Bool :=
  listHas pat.data s.data

/-- Go's `len` on a string (UTF-8 byte count). -/
def utf8Len (s : String) : Nat :=
  s.data.foldl (fun n c => n + c.utf8Size) 0

/-- Embedding of `isNumericValue` (llm.go): has a digit, and a recognized unit suffix or
`%`, or is shorter than 50 bytes. -/
def isNumericValue (s : String) : Bool :=
  let hasDigit := s.data.any fun r => decide ('0' ≤ r) && decide (r ≤ '9')
  hasDigit &&
    (strContainsSub s "MB" || strContainsSub s "GB" || strContainsSub s "KB" ||
     strContainsSub s "ms" || strContainsSub s "seconds" || strContainsSub s "sec" ||
     strContainsSub s "min" || strContainsSub s "hour" || strContainsSub s "%" ||
     decide (utf8Len s < 50))

/-- The error-bucket test of `writeSpanContext`: key case-insensitively
contains error/exception/failure/status, or is exactly `http.status_code`. -/
def isErrorTag (kv : String × String) : Bool :=
  let kLower := strLower kv.1
  strContainsSub kLower "error" || strContainsSub kLower "exception" ||
    strContainsSub kLower "failure" || strContainsSub kLower "status" ||
    kv.1 == "http.status_code"

/-- The numeric-bucket test (tried only when the error bucket missed). -/
def isNumericTag (kv : String × String) : Bool :=
  let kLower := strLower kv.1
  isNumericValue kv.2 ||
    strContainsSub kLower "timeout" || strContainsSub kLower "limit" ||
    strContainsSub kLower "threshold" || strContainsSub kLower "size" ||
    strContainsSub kLower "count" || strContainsSub kLower "duration" ||
    strContainsSub kLower "ttl" || strContainsSub kLower "retry" ||
    strContainsSub kLower "attempt"

/-- The tag text `fmt.Sprintf("%s: %s", k, v)`. -/
def fmtTag (kv : String × String) : String :=
  kv.1 ++ ": " ++ kv.2

/-- One bucket's lines: `b.WriteString("      " + tag + "\n")` per tag. -/
def tagLines (l : List String) : String :=
  l.foldl (fun acc tag => acc ++ "      " ++ tag ++ "\n") ""

/-- Embedding of `writeSpanContext` (llm.go) as the string it appends to the builder.
The single categorizing loop over the tag map appends each tag to exactly
one of three slices (the branches are mutually exclusive by `else if`), so
for a given iteration order it equals three order-preserving filters. -/
def writeSpanContext (span : SpanContext) (label : String) : String :=
  let head :=
    label ++ " Span:\n" ++
    "  Service: " ++ span.service ++ "\n" ++
    "  Operation: " ++ span.operation ++ "\n" ++
    "  Status: " ++ span.status ++ "\n"
  let tagsSection :=
    if span.tags.length > 0 then
      let errorTags := (span.tags.filter isErrorTag).map fmtTag
      let numericTags := (span.tags.filter fun kv => !isErrorTag kv && isNumericTag kv).map fmtTag
      let otherTags := (span.tags.filter fun kv => !isErrorTag kv && !isNumericTag kv).map fmtTag
      "  Tags/Attributes:\n" ++
      (if errorTags.length > 0 then "    [ERROR DETAILS]:\n" ++ tagLines errorTags else "") ++
      (if numericTags.length > 0 then
        "    [NUMERIC VALUES/LIMITS]:\n" ++ tagLines numericTags else "") ++
      (if otherTags.length > 0 then "    [OTHER]:\n" ++ tagLines otherTags else "")
    else ""
  let logsSection :=
    if span.logs.length > 0 then
      "  Logs/Events:\n" ++
      span.logs.foldl (fun acc log =>
        let logLower := strLower log
        if strContainsSub logLower "error" || strContainsSub logLower "exception" ||
            strContainsSub logLower "failed" || strContainsSub logLower "timeout" then
          acc ++ "    [ERROR] " ++ log ++ "\n"
        else
          acc ++ "    - " ++ log ++ "\n") ""
    else ""
  head ++ tagsSection ++ logsSection

/-- The fixed text `buildPrompt` writes before the question line, one
`WriteString` per `++`. -/
def promptPreamble : String :=
  "You are an expert distributed systems engineer analyzing OpenTelemetry trace data.\n" ++
  "Your goal is to explain errors, performance issues, and trace anomalies clearly and actionably.\n\n" ++
  "CRITICAL JSON FORMAT REQUIREMENTS:\n" ++
  "You MUST respond with ONLY valid JSON in this EXACT format:\n" ++
  "\x7b\n" ++
  "  \"root_cause\": \"Brief description of what caused the error\",\n" ++
  "  \"impact\": \"What services/users were affected and how\",\n" ++
  "  \"suggested_action\": \"Concrete steps to fix or prevent this issue\"\n" ++
  "\x7d\n\n" ++
  "STRICT RULES:\n" ++
  "1. NO comments allowed (no \x2f\x2f or \x2f* *\x2f)\n" ++
  "2. NO nested objects - ALL three fields MUST be simple strings\n" ++
  "3. NO markdown code blocks (no \x60\x60\x60json or \x60\x60\x60)\n" ++
  "4. NO explanatory text before or after the JSON\n" ++
  "5. NO null values - if you don\x27t have information, write \x27Not specified in trace data\x27\n" ++
  "6. Each field value MUST be a single string (not an object, not an array)\n\n" ++
  "VALID EXAMPLE:\n" ++
  "\x7b\"root_cause\":\"TimeoutError - query exceeded 30 second limit\",\"impact\":\"GET \x2fapi\x2fusers endpoint failed with 500 status, affecting all user list requests\",\"suggested_action\":\"Increase timeout to 60 seconds or add index on users.active column\"\x7d\n\n" ++
  "INVALID EXAMPLES (DO NOT DO THIS):\n" ++
  "❌ \x7b\"root_cause\": \"error\", \"impact\": \x7b\"service\": \"x\"\x7d\x7d \x2f\x2f NO nested objects!\n" ++
  "❌ \x7b\"root_cause\": \"error\" \x2f\x2f comment\x7d \x2f\x2f NO comments!\n" ++
  "❌ \x7b\"suggested_action\": [\"step1\", \"step2\"]\x7d \x2f\x2f NO arrays!\n\n" ++
  "=== EXTRACTION REQUIREMENTS ===\n" ++
  "When analyzing the span data, you MUST:\n" ++
  "1. Extract and include EXACT numeric values (timeouts, limits, thresholds, counts, durations)\n" ++
  "2. Quote specific error messages and error types verbatim from logs\x2fevents\n" ++
  "3. Include configuration values (memory limits, connection pool sizes, TTLs)\n" ++
  "4. Reference specific file paths, URLs, or resource names when present\n" ++
  "5. Mention the exact HTTP status codes, database error codes, or exception types\n" ++
  "6. Include time durations with units (seconds, milliseconds, hours)\n" ++
  "7. When errors mention rate limits or retry periods, include the exact duration window\n" ++
  "8. When suggesting changes, mention both current and recommended values when possible\n\n" ++
  "EXAMPLES of good vs bad detail level:\n" ++
  "❌ BAD: \x27Database timeout occurred\x27\n" ++
  "✅ GOOD: \x27Database connection timeout - query exceeded 30 second limit\x27\n\n" ++
  "❌ BAD: \x27Circuit breaker triggered due to high error rate\x27\n" ++
  "✅ GOOD: \x27Circuit breaker in OPEN state due to 15 failures exceeding threshold of 10\x27\n\n" ++
  "❌ BAD: \x27Memory issue in background task\x27\n" ++
  "✅ GOOD: \x27OutOfMemoryError - heap memory maxed out at 4096MB during batch processing\x27\n\n"

/-- The fixed analysis-focus and closing text `buildPrompt` writes after the
span sections. -/
def promptAnalysisFocus : String :=
  "=== ANALYSIS FOCUS ===\n" ++
  "In your JSON response, ensure:\n" ++
  "- root_cause (SINGLE STRING): Identify the technical failure point WITH specific details:\n" ++
  "  * Include exact error type\x2fexception class (e.g., \x27TimeoutError\x27, \x27NullPointerException\x27)\n" ++
  "  * Include numeric limits\x2fthresholds if present (e.g., \x2730 second timeout\x27, \x274096MB heap\x27)\n" ++
  "  * Include specific resource names (e.g., table names, API endpoints, file paths)\n" ++
  "- impact (SINGLE STRING): Describe business\x2fuser impact with specifics:\n" ++
  "  * Which exact endpoint\x2foperation failed (e.g., \x27POST \x2fapi\x2forders\x27, \x27GET \x2fapi\x2fusers\x27)\n" ++
  "  * Scope of impact (e.g., \x27all user list requests\x27, \x27next 3600 seconds\x27)\n" ++
  "  * HTTP status codes or error responses users received\n" ++
  "- suggested_action (SINGLE STRING): Provide actionable remediation with technical details:\n" ++
  "  * Specific configuration changes with values (e.g., \x27increase heap to 8192MB\x27)\n" ++
  "  * Exact commands or parameters (e.g., \x27chmod 755 \x2fvar\x2fuploads\x27)\n" ++
  "  * Reference specific tools\x2ftechniques (e.g., \x27add index on users.email column\x27)\n" ++
  "  * If multiple steps, separate with semicolons or write as prose, NOT as nested objects\x2farrays\n\n" ++
  "IMPORTANT: Look carefully at the Tags and Logs sections - they contain the specific values you need!\n\n" ++
  "FINAL REMINDER: Output ONLY the JSON object with three string fields. No comments, no nesting, no extra text.\n"

/-- The child-span loop of `buildPrompt`: numbered blocks separated by a
newline between consecutive children. -/
def childBlocks : Nat → List SpanContext → String
  | _, [] => ""
  | i, [c] => writeSpanContext c ("Child " ++ toString (i + 1))
  | i, c :: c' :: rest =>
    writeSpanContext c ("Child " ++ toString (i + 1)) ++ "\n" ++ childBlocks (i + 1) (c' :: rest)

/-- Embedding of `buildPrompt` (llm.go): preamble, optional question line, target block,
optional parent block, optional child section, closing analysis text. -/
def buildPrompt (ctx : ExplainContext) (question : String) : String :=
  promptPreamble ++
  (if question ≠ "" then "Question: " ++ question ++ "\n\n" else "") ++
  "=== TARGET SPAN (Error\x2fIssue) ===\n" ++ writeSpanContext ctx.targetSpan "Target" ++ "\n" ++
  (match ctx.parentSpan with
   | some p => "=== PARENT SPAN (Caller Context) ===\n" ++ writeSpanContext p "Parent" ++ "\n"
   | none => "") ++
  (if ctx.childSpans.length > 0 then
    "=== CHILD SPANS (Downstream Calls) ===\n" ++ childBlocks 0 ctx.childSpans ++ "\n"
   else "") ++
  promptAnalysisFocus

/-! ## Wire model of the explain endpoint (`internal/server/server.go`) -/

/-- The decoded request body of `POST /explain-span`. -/
structure ExplainRequest where
  upload_id : String
  span_id : String
  question : String

/-- A response body as written by the handler: either `http.Error` text or
the JSON-encoded `{"answer": …}` wrapper. -/
inductive WireBody where
  | errorText (s : String)
  | answer (r : ExplainResult)
deriving DecidableEq, Repr

/-- The outcome of the external model call inside `ExplainTrace`:
either the call itself errors, or it returns raw text whose extracted JSON
parses (externally) to the given tree — or fails to parse. -/
inductive ModelOutcome where
  | callError (msg : String)
  | response (parsed : Except String JValue)

/-- Render a typed output-validation failure the way the source `error`
values print (`fmt.Errorf` messages in ParseResult). -/
def renderPError : PError → String
  | .malformedOutput m => m
  | .missingField name => name ++ " field is missing or empty"

/-- Embedding of `ExplainTrace` (llm.go): build the explain context (wrapping its failure),
compose the prompt, call the model, then validate the model's output
(wrapping validation failure).  The model call is the oracle `outcome`. -/
def ExplainTrace (outcome : ModelOutcome) (traceData : Option Trace)
    (question spanID : String) : Except String ExplainResult :=
  match BuildExplainContext traceData spanID with
  | .error e => .error ("failed to build explain context: " ++ e)
  | .ok explainCtx =>
    let _prompt := buildPrompt explainCtx question
    match outcome with
    | .callError m => .error m
    | .response parsed =>
      match ParseResult parsed with
      | .error e => .error ("invalid LLM response format: " ++ renderPError e)
      | .ok answer => .ok answer

/-- The branch structure of the `queryLLM` handler (server.go), after the
request body has been decoded: empty required field ⇒ 400; store miss ⇒ 404
"trace not found"; any `ExplainTrace` error ⇒ 500 with the error text;
success ⇒ 200 with the answer wrapper.  `getTrace` is the store lookup
outcome, its inner layer the `ParseTrace` outcome of the stored bytes. -/
def queryLLM (getTrace : Option (Option Trace)) (outcome : ModelOutcome)
    (req : ExplainRequest) : Nat × WireBody :=
  if req.upload_id = "" ∨ req.span_id = "" ∨ req.question = "" then
    (400, .errorText "upload_id, span_id, and question are required")
  else
    match getTrace with
    | none => (404, .errorText "trace not found")
    | some traceData =>
      match ExplainTrace outcome traceData req.question req.span_id with
      | .error e => (500, .errorText e)
      | .ok answer => (200, .answer answer)

/-! ## List helpers and characterizations of the index maps -/

/-- The last element of `l` satisfying `f`, if any — the value a sequence of
map writes keyed by `f`-matches leaves behind. -/
def lastWith {α : Type} (f : α → Bool) : List α → Option α
  | [] => none
  | x :: xs =>
    match lastWith f xs with
    | some y => some y
    | none => if f x then some x else none

theorem lastWith_eq_none {α : Type} (f : α → Bool) (l : List α) :
    lastWith f l = none ↔ l.filter f = [] := by
  induction l with
  | nil => simp [lastWith]
  | cons x xs ih =>
    simp only [lastWith, List.filter_cons]
    cases h : lastWith f xs with
    | some y =>
      have hne : xs.filter f ≠ [] := fun hf => by simp [ih.mpr hf] at h
      by_cases hx : f x <;> simp [hx, hne]
    | none =>
      have hf : xs.filter f = [] := ih.mp h
      by_cases hx : f x <;> simp [hx, hf]

theorem lastWith_of_filter_short {α : Type} (f : α → Bool) (l : List α)
    (h : (l.filter f).length ≤ 1) : lastWith f l = (l.filter f).head? := by
  induction l with
  | nil => rfl
  | cons x xs ih =>
    simp only [lastWith, List.filter_cons] at *
    by_cases hx : f x
    · simp only [hx, if_true] at h ⊢
      have hxs : xs.filter f = [] := by
        cases hf : xs.filter f with
        | nil => rfl
        | cons y ys => rw [hf] at h; simp at h
      rw [(lastWith_eq_none f xs).mpr hxs]
      simp [hxs]
    · simp only [hx, if_false, Bool.false_eq_true] at h ⊢
      rw [ih h]
      cases hf : xs.filter f with
      | nil => simp [(lastWith_eq_none f xs).mpr hf, hf]
      | cons y ys => simp [hf]

theorem perm_eq_of_length_le_one {α : Type} {l₁ l₂ : List α}
    (h : l₁.Perm l₂) (hlen : l₁.length ≤ 1) : l₁ = l₂ := by
  cases l₁ with
  | nil => exact (List.Perm.eq_nil h.symm).symm
  | cons a l =>
    cases l with
    | nil => exact (List.perm_singleton.mp h.symm).symm
    | cons b l' => simp at hlen

/-- At most one entry of `l` carries any given key, when the keys are
pairwise distinct. -/
theorem filter_key_length_le_one {α β : Type} [DecidableEq β] (g : α → β)
    (l : List α) (h : (l.map g).Nodup) (k : β) :
    (l.filter fun x => g x == k).length ≤ 1 := by
  induction l with
  | nil => simp
  | cons x xs ih =>
    simp only [List.map_cons, List.nodup_cons] at h
    simp only [List.filter_cons]
    by_cases hx : g x == k
    · have hgx : g x = k := by simpa using hx
      have hnil : xs.filter (fun x => g x == k) = [] := by
        rw [List.filter_eq_nil_iff]
        intro a ha hak
        have hga : g a = k := by simpa using hak
        exact h.1 (by rw [hgx, ← hga]; exact List.mem_map_of_mem g ha)
      simp [hx, hnil]
    · simp only [hx, if_false]
      exact ih h.2

/-- Effect of the whole indexing fold on `SpansByID`: the last write wins. -/
theorem spansByID_foldl (l : List (String × Span)) (acc : TraceIndex) (k : String) :
    (l.foldl indexStep acc).SpansByID k =
      (match lastWith (fun p => p.2.spanId == k) l with
       | some p => some p.2
       | none => acc.SpansByID k) := by
  induction l generalizing acc with
  | nil => rfl
  | cons x xs ih =>
    simp only [List.foldl_cons, lastWith]
    rw [ih]
    cases h : lastWith (fun p : String × Span => p.2.spanId == k) xs with
    | some p => simp
    | none =>
      show (indexStep acc x).SpansByID k = _
      simp only [indexStep]
      by_cases hk : k = x.2.spanId
      · simp [hk]
      · have hk' : ¬ x.2.spanId = k := fun h' => hk h'.symm
        simp [hk, hk']

/-- Effect of the whole indexing fold on `ServiceBySpan`: the last write wins. -/
theorem serviceBySpan_foldl (l : List (String × Span)) (acc : TraceIndex) (k : String) :
    (l.foldl indexStep acc).ServiceBySpan k =
      (match lastWith (fun p : String × Span => p.2.spanId == k) l with
       | some p => some p.1
       | none => acc.ServiceBySpan k) := by
  induction l generalizing acc with
  | nil => rfl
  | cons x xs ih =>
    simp only [List.foldl_cons, lastWith]
    rw [ih]
    cases h : lastWith (fun p : String × Span => p.2.spanId == k) xs with
    | some p => simp
    | none =>
      show (indexStep acc x).ServiceBySpan k = _
      simp only [indexStep]
      by_cases hk : k = x.2.spanId
      · simp [hk]
      · have hk' : ¬ x.2.spanId = k := fun h' => hk h'.symm
        simp [hk, hk']

/-- Effect of the whole indexing fold on one children list: every traversed
span with non-empty `parentSpanId` equal to `q` is appended, in order. -/
theorem children_foldl (l : List (String × Span)) (acc : TraceIndex) (q : String) :
    (l.foldl indexStep acc).Children q =
      acc.Children q ++
        ((l.filter fun p => p.2.parentSpanId != "" && p.2.parentSpanId == q).map Prod.snd) := by
  induction l generalizing acc with
  | nil => simp
  | cons x xs ih =>
    simp only [List.foldl_cons, List.filter_cons]
    rw [ih]
    by_cases h1 : x.2.parentSpanId = ""
    · simp [indexStep, h1]
    · by_cases h2 : x.2.parentSpanId = q
      · have hq : ¬ q = "" := h2 ▸ h1
        simp [indexStep, h1, h2, hq, List.append_assoc]
      · have : ¬ q = x.2.parentSpanId := fun h => h2 h.symm
        simp [indexStep, h1, h2, this]

/-! ## Concrete fixtures used by witnesses and counterexamples -/

/-- A minimal span with the given identity and parent. -/
def mkSpan (id parent name : String) : Span :=
  { traceId := "t1", spanId := id, parentSpanId := parent, name := name,
    startTime := "", endTime := "", status := ⟨"STATUS_CODE_ERROR"⟩,
    attributes := [], events := [] }

/-- A `service.name` resource attribute in OTel value format. -/
def svcAttr (s : String) : Attribute :=
  ⟨"service.name", [("stringValue", .jstr s)]⟩

/-- Two sibling spans `c1`, `c2` under parent id `p`, in document order. -/
def exTrace1 : Trace :=
  ⟨[⟨⟨[svcAttr "svc-a"]⟩, [⟨[mkSpan "c1" "p" "op1", mkSpan "c2" "p" "op2"]⟩]⟩]⟩

/-- The same two spans with their order within the scope swapped —
a permutation preserving every parent/child id. -/
def exTrace2 : Trace :=
  ⟨[⟨⟨[svcAttr "svc-a"]⟩, [⟨[mkSpan "c2" "p" "op2", mkSpan "c1" "p" "op1"]⟩]⟩]⟩

/-! ## C5 — validator check order -/

theorem countAndCheck_eq (l : List Span) (n : Nat) :
    countAndCheck l n =
      (match l.find? (fun sp => !isValidSpan sp) with
       | some sp => .error (.invalidSpan sp.traceId sp.spanId)
       | none => .ok (n + l.length)) := by
  induction l generalizing n with
  | nil => rfl
  | cons sp rest ih =>
    simp only [countAndCheck, List.find?_cons]
    by_cases h : isValidSpan sp
    · simp only [h, Bool.not_true, if_false, Bool.false_eq_true]
      rw [ih]
      cases hf : rest.find? (fun sp => !isValidSpan sp) with
      | some sp' => simp
      | none =>
        simp only [List.length_cons]
        have : n + 1 + rest.length = n + (rest.length + 1) := by omega
        rw [this]
    · simp [h]

/-- C5: the payload validator performs its checks in the stated order with
the stated failure kinds: parse failure ⇒ `InvalidJSON`; else empty
`resourceSpans` ⇒ `MissingResourceSpans`; else the first span in depth-first
`resourceSpans → scopeSpans → spans` order missing any of
traceId/spanId/name ⇒ `InvalidSpan(traceId, spanId)`; else zero total spans
⇒ `MissingSpans`; else success.  Purity/no-side-effects holds by
construction: `ValidateOTLPTraces` is a function of the parsed payload alone
and touches no store. -/
theorem C5_validator_check_order (raw : Option Trace) :
    ValidateOTLPTraces raw = ValidateSpec raw := by
  cases raw with
  | none => rfl
  | some payload =>
    simp only [ValidateOTLPTraces, ValidateSpec]
    by_cases hrs : payload.resourceSpans.length = 0
    · simp [hrs]
    · simp only [hrs, if_false]
      rw [countAndCheck_eq]
      cases hf : (allSpans payload).find? (fun sp => !isValidSpan sp) with
      | some sp => simp
      | none => simp

example :
    ValidateOTLPTraces (some ⟨[⟨⟨[]⟩, [⟨[mkSpan "a" "" "op", mkSpan "" "" ""]⟩]⟩]⟩) =
      .error (.invalidSpan "t1" "") := rfl

example : ValidateOTLPTraces (some ⟨[]⟩) = .error .missingResourceSpans := rfl

example : ValidateOTLPTraces (some ⟨[⟨⟨[]⟩, [⟨[]⟩]⟩]⟩) = .error .missingSpans := rfl

example : ValidateOTLPTraces none = .error .invalidJSON := rfl

example : ValidateOTLPTraces (some exTrace1) = .ok () := rfl

/-! ## C6 — duplicate span ids and unconditional child recording -/

/-- C6: over the indexing pass's traversal sequence `flattenTrace`,
`SpansByID k` is exactly the **last** traversed span bearing id `k`
(last write observed wins under duplicate ids), and `Children q` is exactly
the in-order list of **all** traversed spans whose `parentSpanId` is
non-empty and equal to `q` — each appended regardless of whether the parent
span itself occurs anywhere in the trace. -/
theorem C6_last_write_wins_and_children_append (t : Trace) (k q : String) :
    (BuildTraceIndex t).SpansByID k =
      Option.map Prod.snd (lastWith (fun p => p.2.spanId == k) (flattenTrace t)) ∧
    (BuildTraceIndex t).Children q =
      ((flattenTrace t).filter fun p =>
        p.2.parentSpanId != "" && p.2.parentSpanId == q).map Prod.snd := by
  constructor
  · rw [BuildTraceIndex, spansByID_foldl]
    cases lastWith (fun p : String × Span => p.2.spanId == k) (flattenTrace t) <;>
      simp [emptyIndex]
  · rw [BuildTraceIndex, children_foldl]
    simp [emptyIndex]

example :
    (BuildTraceIndex ⟨[⟨⟨[]⟩, [⟨[mkSpan "a" "" "first", mkSpan "a" "" "second"]⟩]⟩]⟩).SpansByID
      "a" = some (mkSpan "a" "" "second") := by decide

example :
    (BuildTraceIndex ⟨[⟨⟨[]⟩, [⟨[mkSpan "c" "nowhere" "op"]⟩]⟩]⟩).Children "nowhere" =
      [mkSpan "c" "nowhere" "op"] := by decide

/-! ## C10 — duplicate occurrences all reach the children list -/

/-- C10: the children map never collapses duplicates: for a non-empty parent
id `q`, `Children q` has exactly one entry per traversed span occurrence
with that parent (counted both in total and per duplicated `spanId`), while
`SpansByID` — per C6 — keeps only the last write.  Last-occurrence-wins thus
never applies to the children map. -/
theorem C10_children_keep_duplicates (t : Trace) (q sid : String) (hq : q ≠ "") :
    ((BuildTraceIndex t).Children q).length =
      ((flattenTrace t).countP fun p => p.2.parentSpanId == q) ∧
    (((BuildTraceIndex t).Children q).filter fun s => s.spanId == sid).length =
      ((flattenTrace t).countP fun p =>
        p.2.parentSpanId == q && p.2.spanId == sid) := by
  have hch : (BuildTraceIndex t).Children q =
      ((flattenTrace t).filter fun p =>
        p.2.parentSpanId != "" && p.2.parentSpanId == q).map Prod.snd := by
    rw [BuildTraceIndex, children_foldl]
    simp [emptyIndex]
  have hcondeq : ((flattenTrace t).filter fun p =>
      p.2.parentSpanId != "" && p.2.parentSpanId == q) =
      ((flattenTrace t).filter fun p => p.2.parentSpanId == q) := by
    apply List.filter_congr
    intro p _
    by_cases h : p.2.parentSpanId = q
    · simp [h, hq]
    · simp [h]
  rw [hch, hcondeq]
  constructor
  · rw [List.length_map, List.countP_eq_length_filter]
  · rw [List.filter_map, List.length_map, List.countP_eq_length_filter, List.filter_filter]
    congr 1
    apply List.filter_congr
    intro p _
    show (p.2.spanId == sid && p.2.parentSpanId == q) = _
    exact Bool.and_comm _ _

/-- Witness for C10 at a duplicated span id: the same `spanId` `d` occurs
twice under parent `p`; both occurrences land in `Children "p"`. -/
theorem C10_children_keep_duplicates_witness :
    ("p" ≠ "") ∧
    ((BuildTraceIndex ⟨[⟨⟨[]⟩, [⟨[mkSpan "d" "p" "op1", mkSpan "d" "p" "op2"]⟩]⟩]⟩).Children
      "p").length = 2 ∧
    (((BuildTraceIndex ⟨[⟨⟨[]⟩, [⟨[mkSpan "d" "p" "op1", mkSpan "d" "p" "op2"]⟩]⟩]⟩).Children
      "p").filter fun s => s.spanId == "d").length = 2 := by
  refine ⟨by decide, ?_, ?_⟩
  · rw [(C10_children_keep_duplicates _ "p" "d" (by decide)).1]
    decide
  · rw [(C10_children_keep_duplicates _ "p" "d" (by decide)).2]
    decide

/-! ## C8 — order-independence of the index -/

/-- C8 as stated is false: swapping two sibling spans (a permutation of the
`spans` array preserving every parent/child id) reorders the children list,
so `childrenByParentID` is **not** the same after permutation.  `exTrace2`
is such a permutation of `exTrace1` (first conjunct), yet the recorded
children of `"p"` differ (second conjunct). -/
theorem C8_counterexample :
    (flattenTrace exTrace1).Perm (flattenTrace exTrace2) ∧
    (BuildTraceIndex exTrace1).Children "p" ≠ (BuildTraceIndex exTrace2).Children "p" := by
  constructor
  · decide
  · decide

/-- C8 amended: for any reordering of resourceSpans/scopeSpans/spans
(any two traces whose traversal sequences are permutations of one another),
if span ids are pairwise distinct then `spansByID` and `serviceBySpanID`
agree at every key, and each `childrenByParentID` list is preserved up to
permutation (in particular, a child occurring before its parent in document
order is recorded all the same). -/
theorem C8_index_perm_invariance (t1 t2 : Trace)
    (hperm : (flattenTrace t1).Perm (flattenTrace t2))
    (hnodup : ((flattenTrace t1).map fun p => p.2.spanId).Nodup) :
    (∀ k, (BuildTraceIndex t1).SpansByID k = (BuildTraceIndex t2).SpansByID k) ∧
    (∀ k, (BuildTraceIndex t1).ServiceBySpan k = (BuildTraceIndex t2).ServiceBySpan k) ∧
    ∀ q, ((BuildTraceIndex t1).Children q).Perm ((BuildTraceIndex t2).Children q) := by
  have hbound : ∀ k, ((flattenTrace t1).filter fun p => p.2.spanId == k).length ≤ 1 :=
    filter_key_length_le_one (fun p : String × Span => p.2.spanId) _ hnodup
  have hfilter : ∀ k, ((flattenTrace t1).filter fun p => p.2.spanId == k) =
      ((flattenTrace t2).filter fun p => p.2.spanId == k) := by
    intro k
    exact perm_eq_of_length_le_one (hperm.filter _) (hbound k)
  have hlast : ∀ k, lastWith (fun p : String × Span => p.2.spanId == k) (flattenTrace t1) =
      lastWith (fun p : String × Span => p.2.spanId == k) (flattenTrace t2) := by
    intro k
    rw [lastWith_of_filter_short _ _ (hbound k),
      lastWith_of_filter_short _ _ (by rw [← hfilter k]; exact hbound k), hfilter k]
  refine ⟨?_, ?_, ?_⟩
  · intro k
    rw [BuildTraceIndex, BuildTraceIndex, spansByID_foldl, spansByID_foldl, hlast k]
  · intro k
    rw [BuildTraceIndex, BuildTraceIndex, serviceBySpan_foldl, serviceBySpan_foldl, hlast k]
  · intro q
    rw [BuildTraceIndex, BuildTraceIndex, children_foldl, children_foldl]
    simp only [emptyIndex, List.nil_append]
    exact (hperm.filter _).map _

/-- Witness for the amended C8 on the swapped-siblings pair: span ids are
distinct there, so both point lookups agree and the children lists are
permutations. -/
theorem C8_index_perm_invariance_witness :
    (BuildTraceIndex exTrace1).SpansByID "c1" = (BuildTraceIndex exTrace2).SpansByID "c1" ∧
    (BuildTraceIndex exTrace1).ServiceBySpan "c2" =
      (BuildTraceIndex exTrace2).ServiceBySpan "c2" ∧
    ((BuildTraceIndex exTrace1).Children "p").Perm ((BuildTraceIndex exTrace2).Children "p") :=
  ⟨(C8_index_perm_invariance exTrace1 exTrace2 (by decide) (by decide)).1 "c1",
   (C8_index_perm_invariance exTrace1 exTrace2 (by decide) (by decide)).2.1 "c2",
   (C8_index_perm_invariance exTrace1 exTrace2 (by decide) (by decide)).2.2 "p"⟩

/-! ## C4 / C7 — context extraction -/

theorem lastWith_sat {α : Type} {f : α → Bool} {x : α} :
    ∀ {l : List α}, lastWith f l = some x → f x = true := by
  intro l
  induction l with
  | nil => intro h; exact absurd h (by simp [lastWith])
  | cons y ys ih =>
    intro h
    simp only [lastWith] at h
    cases hys : lastWith f ys with
    | some z =>
      rw [hys] at h
      injection h with h'
      subst h'
      exact ih hys
    | none =>
      rw [hys] at h
      by_cases hf : f y
      · rw [if_pos hf] at h
        injection h with h'
        subst h'
        exact hf
      · rw [if_neg hf] at h
        exact absurd h (by simp)

/-- A successful `SpansByID` lookup returns a span actually bearing the
looked-up id (it was stored under its own `spanId`). -/
theorem spansByID_some_spanId (t : Trace) (k : String) (sp : Span)
    (h : (BuildTraceIndex t).SpansByID k = some sp) : sp.spanId = k := by
  rw [BuildTraceIndex, spansByID_foldl] at h
  cases hl : lastWith (fun p : String × Span => p.2.spanId == k) (flattenTrace t) with
  | none => rw [hl] at h; simp [emptyIndex] at h
  | some p =>
    rw [hl] at h
    injection h with h'
    subst h'
    simpa using lastWith_sat hl

/-- Whether an extraction attempt succeeded. -/
def ctxOk (r : Except String ExplainContext) : Bool :=
  match r with
  | .ok _ => true
  | .error _ => false

/-- The parent section of an extraction outcome (`none` on failure). -/
def ctxParent (r : Except String ExplainContext) : Option SpanContext :=
  match r with
  | .ok c => c.parentSpan
  | .error _ => none

/-- The child section of an extraction outcome (`[]` on failure). -/
def ctxChildren (r : Except String ExplainContext) : List SpanContext :=
  match r with
  | .ok c => c.childSpans
  | .error _ => []

theorem findChildren_eq_take (idx : TraceIndex) (id : String) (limit : Nat) :
    findChildren idx id limit = (idx.Children id).take limit := by
  unfold findChildren
  by_cases h : (idx.Children id).length > limit
  · simp [h]
  · simp only [h, if_false]
    exact (List.take_of_length_le (by omega)).symm

/-- C4: when the target resolves, the extracted child list is exactly the
first `min 2 (number of recorded children)` entries of the index's children
list for the target id, in index-build order, each converted by
`buildSpanContext`; a target with more than 2 children yields exactly 2, and
the section is empty when no children were recorded. -/
theorem C4_children_capped (t : Trace) (sid : String) (target : Span)
    (h : (BuildTraceIndex t).SpansByID sid = some target) :
    ctxChildren (BuildExplainContext (some t) sid) =
      (((BuildTraceIndex t).Children sid).take 2).map
        (fun ch => buildSpanContext ch (((BuildTraceIndex t).ServiceBySpan ch.spanId).getD "")) ∧
    (ctxChildren (BuildExplainContext (some t) sid)).length =
      min 2 ((BuildTraceIndex t).Children sid).length ∧
    ((BuildTraceIndex t).Children sid = [] →
      ctxChildren (BuildExplainContext (some t) sid) = []) := by
  have hsid : target.spanId = sid := spansByID_some_spanId t sid target h
  have hc : ctxChildren (BuildExplainContext (some t) sid) =
      (((BuildTraceIndex t).Children sid).take 2).map
        (fun ch => buildSpanContext ch (((BuildTraceIndex t).ServiceBySpan ch.spanId).getD "")) := by
    simp only [BuildExplainContext, findSpan, h]
    simp only [ctxChildren, findChildren_eq_take, hsid]
  refine ⟨hc, ?_, ?_⟩
  · rw [hc, List.length_map, List.length_take]
  · intro hnil
    rw [hc, hnil]
    rfl

/-- A target span with three recorded children: the claim's cap of 2 is
enforced, via C4 applied to this concrete trace. -/
def exTrace5 : Trace :=
  ⟨[⟨⟨[svcAttr "svc-b"]⟩,
    [⟨[mkSpan "tgt" "" "t", mkSpan "k1" "tgt" "o1", mkSpan "k2" "tgt" "o2",
       mkSpan "k3" "tgt" "o3"]⟩]⟩]⟩

theorem C4_children_capped_witness :
    ((BuildTraceIndex exTrace5).Children "tgt").length = 3 ∧
    (ctxChildren (BuildExplainContext (some exTrace5) "tgt")).length =
      min 2 ((BuildTraceIndex exTrace5).Children "tgt").length :=
  ⟨by decide,
   (C4_children_capped exTrace5 "tgt" (mkSpan "tgt" "" "t") (by decide)).2.1⟩

/-- C7: when the target resolves, extraction succeeds unconditionally; the
parent section holds exactly the `SpanContext` of the resolved parent span
(with its resolved service) when `parentSpanId` is non-empty and resolves in
the index, and is silently `none` both when `parentSpanId` is empty and when
it fails to resolve. -/
theorem C7_parent_section (t : Trace) (sid : String) (target : Span)
    (h : (BuildTraceIndex t).SpansByID sid = some target) :
    ctxOk (BuildExplainContext (some t) sid) = true ∧
    (∀ parent, target.parentSpanId ≠ "" →
      (BuildTraceIndex t).SpansByID target.parentSpanId = some parent →
      ctxParent (BuildExplainContext (some t) sid) =
        some (buildSpanContext parent
          (((BuildTraceIndex t).ServiceBySpan parent.spanId).getD ""))) ∧
    (target.parentSpanId = "" → ctxParent (BuildExplainContext (some t) sid) = none) ∧
    ((BuildTraceIndex t).SpansByID target.parentSpanId = none →
      ctxParent (BuildExplainContext (some t) sid) = none) := by
  refine ⟨?_, ?_, ?_, ?_⟩
  · simp only [BuildExplainContext, findSpan, h, ctxOk]
  · intro parent hne hp
    simp only [BuildExplainContext, findSpan, h, ctxParent, hne, hp, if_true]
    rw [if_pos hne]
  · intro he
    simp [BuildExplainContext, findSpan, h, ctxParent, he]
  · intro hp
    by_cases hne : target.parentSpanId = ""
    · simp [BuildExplainContext, findSpan, h, ctxParent, hne]
    · simp [BuildExplainContext, findSpan, h, ctxParent, hne, hp]

/-- A two-span trace: `child` has resolvable parent `root`. -/
def exTrace3 : Trace :=
  ⟨[⟨⟨[svcAttr "svc-a"]⟩,
    [⟨[mkSpan "root" "" "rootop", mkSpan "child" "root" "childop"]⟩]⟩]⟩

/-- A span whose `parentSpanId` (`ghost`) resolves nowhere. -/
def exTrace4 : Trace :=
  ⟨[⟨⟨[svcAttr "svc-a"]⟩, [⟨[mkSpan "solo" "ghost" "soloop"]⟩]⟩]⟩

theorem C7_parent_section_witness :
    ctxOk (BuildExplainContext (some exTrace3) "child") = true ∧
    ctxParent (BuildExplainContext (some exTrace3) "child") =
      some (buildSpanContext (mkSpan "root" "" "rootop")
        (((BuildTraceIndex exTrace3).ServiceBySpan "root").getD "")) ∧
    ctxOk (BuildExplainContext (some exTrace4) "solo") = true ∧
    ctxParent (BuildExplainContext (some exTrace4) "solo") = none := by
  obtain ⟨hok, hpar, -, -⟩ :=
    C7_parent_section exTrace3 "child" (mkSpan "child" "root" "childop") (by decide)
  obtain ⟨hok4, -, -, hmiss⟩ :=
    C7_parent_section exTrace4 "solo" (mkSpan "solo" "ghost" "soloop") (by decide)
  exact ⟨hok, hpar (mkSpan "root" "" "rootop") (by decide) (by decide),
    hok4, hmiss (by decide)⟩

/-! ## C3 — wire-level reporting of span-not-found -/

/-- An arbitrary model-call outcome (never reached on the paths at issue). -/
def exOutcome : ModelOutcome := .callError "model unavailable"

/-- C3 as stated is false at the wire: with a stored, parseable trace
(`exTrace3`) and the absent span id `"Z"`, the handler answers HTTP 500 —
the same generic status given to an output-validation failure (third
conjunct) — with the wrapped extractor message, whereas only the unknown
`upload_id` case gets the 404 "not found" classification (second conjunct). -/
theorem C3_counterexample :
    queryLLM (some (some exTrace3)) exOutcome ⟨"u1", "Z", "why"⟩ =
      (500, .errorText "failed to build explain context: target span not found") ∧
    queryLLM none exOutcome ⟨"u1", "Z", "why"⟩ = (404, .errorText "trace not found") ∧
    (queryLLM (some (some exTrace3)) exOutcome ⟨"u1", "Z", "why"⟩).1 =
      (queryLLM (some (some exTrace3)) (.response (.ok (.jstr "not json")))
        ⟨"u1", "child", "why"⟩).1 := by
  refine ⟨rfl, rfl, rfl⟩

/-- C3 amended: an absent target span id yields the distinct
`"target span not found"` failure from the extractor, but the wire reports
it through the generic error path — HTTP 500 with the wrapped message —
distinguishable from the 404 `"trace not found"` of an unknown upload id
only by message text, not by a "not found" status classification. -/
theorem C3_span_not_found_reporting (t : Trace) (uid sid q : String)
    (outcome : ModelOutcome) (huid : uid ≠ "") (hsid : sid ≠ "") (hq : q ≠ "")
    (habsent : (BuildTraceIndex t).SpansByID sid = none) :
    BuildExplainContext (some t) sid = .error "target span not found" ∧
    queryLLM (some (some t)) outcome ⟨uid, sid, q⟩ =
      (500, .errorText "failed to build explain context: target span not found") ∧
    queryLLM none outcome ⟨uid, sid, q⟩ = (404, .errorText "trace not found") := by
  have hb : BuildExplainContext (some t) sid = .error "target span not found" := by
    simp [BuildExplainContext, findSpan, habsent]
  refine ⟨hb, ?_, ?_⟩
  · simp only [queryLLM]
    rw [if_neg (by simp [huid, hsid, hq])]
    simp only [ExplainTrace, hb]
    rfl
  · simp only [queryLLM]
    rw [if_neg (by simp [huid, hsid, hq])]

theorem C3_span_not_found_reporting_witness :
    BuildExplainContext (some exTrace3) "Z" = .error "target span not found" ∧
    queryLLM (some (some exTrace3)) exOutcome ⟨"u1", "Z", "why"⟩ =
      (500, .errorText "failed to build explain context: target span not found") ∧
    queryLLM none exOutcome ⟨"u1", "Z", "why"⟩ = (404, .errorText "trace not found") :=
  C3_span_not_found_reporting exTrace3 "u1" "Z" "why" exOutcome
    (by decide) (by decide) (by decide) (by decide)

/-! ## C1 — non-string fields and the decode step -/

/-- A top-level field whose key is one of the three required names and whose
value is neither a string nor `null` — the shapes Go's decoder rejects with
an `UnmarshalTypeError`. -/
def isBadField (f : String × JValue) : Bool :=
  (f.1 == "root_cause" || f.1 == "impact" || f.1 == "suggested_action") &&
    (match f.2 with
     | .jstr _ => false
     | .jnull => false
     | _ => true)

theorem keyMatches_rc_rc : keyMatches "root_cause" "root_cause" = true := by decide

theorem keyMatches_imp_rc : keyMatches "impact" "root_cause" = false := by decide

theorem keyMatches_imp_imp : keyMatches "impact" "impact" = true := by decide

theorem keyMatches_sa_rc : keyMatches "suggested_action" "root_cause" = false := by decide

theorem keyMatches_sa_imp : keyMatches "suggested_action" "impact" = false := by decide

theorem keyMatches_sa_sa : keyMatches "suggested_action" "suggested_action" = true := by decide

theorem decodeStep_snd_isSome (st : ExplainResult × Option String)
    (f : String × JValue) (h : st.2.isSome = true) :
    ((decodeStep st f).2).isSome = true := by
  obtain ⟨r, e⟩ := st
  obtain ⟨k, v⟩ := f
  simp only [decodeStep]
  by_cases h1 : keyMatches k "root_cause"
  · simp only [h1, if_true]
    cases v <;> simp_all
  · by_cases h2 : keyMatches k "impact"
    · simp only [h1, h2, if_false, if_true]
      cases v <;> simp_all
    · by_cases h3 : keyMatches k "suggested_action"
      · simp only [h1, h2, h3, if_false, if_true]
        cases v <;> simp_all
      · simp_all

theorem decodeStep_bad (st : ExplainResult × Option String)
    (f : String × JValue) (hbad : isBadField f = true) :
    ((decodeStep st f).2).isSome = true := by
  obtain ⟨r, e⟩ := st
  obtain ⟨k, v⟩ := f
  simp only [isBadField, Bool.and_eq_true, Bool.or_eq_true, beq_iff_eq] at hbad
  obtain ⟨hk, hv⟩ := hbad
  rcases hk with (hk | hk) | hk <;> subst hk <;> simp only [decodeStep] <;>
    cases v <;>
    simp_all [keyMatches_rc_rc, keyMatches_imp_rc, keyMatches_imp_imp,
      keyMatches_sa_rc, keyMatches_sa_imp, keyMatches_sa_sa]

theorem foldl_decodeStep_some_of_bad (l : List (String × JValue))
    (st : ExplainResult × Option String)
    (h : (∃ f ∈ l, isBadField f = true) ∨ st.2.isSome = true) :
    ((l.foldl decodeStep st).2).isSome = true := by
  induction l generalizing st with
  | nil =>
    rcases h with ⟨f, hf, _⟩ | h
    · exact absurd hf (List.not_mem_nil f)
    · exact h
  | cons x xs ih =>
    simp only [List.foldl_cons]
    rcases h with ⟨f, hf, hbad⟩ | h
    · rcases List.mem_cons.mp hf with rfl | hf'
      · exact ih _ (Or.inr (decodeStep_bad st f hbad))
      · exact ih _ (Or.inl ⟨f, hf', hbad⟩)
    · exact ih _ (Or.inr (decodeStep_snd_isSome st x h))

/-- C1 amended: a required field that is present with a value that is
neither a string nor `null` (object/array/number/bool) makes the decode step
fail, and output validation reports the wrapped `MalformedOutput` decode
failure — the value is never coerced.  (`null`, excluded here, is the
correction: Go's decoder ignores it without error, so such a field decodes
as empty and fails the later `MissingField` check instead — see the
counterexample.) -/
theorem C1_nonstring_field_decode_failure (fields : List (String × JValue))
    (hbad : ∃ f ∈ fields, isBadField f = true) :
    ∃ m, decodeExplainResult (.jobj fields) = .error m ∧
      ParseResult (.ok (.jobj fields)) =
        .error (.malformedOutput
          ("response is not valid JSON: " ++ ("failed to parse explain result: " ++ m))) := by
  have hsome := foldl_decodeStep_some_of_bad fields (⟨"", "", ""⟩, none) (Or.inl hbad)
  cases hm : (fields.foldl decodeStep (⟨"", "", ""⟩, none)).2 with
  | none => rw [hm] at hsome; simp at hsome
  | some m =>
    refine ⟨m, ?_, ?_⟩
    · simp only [decodeExplainResult, hm]
    · simp only [ParseResult, ParseExplainResult, decodeExplainResult, hm]

/-- Witness for the amended C1 at the claim's own nested-object input. -/
theorem C1_nonstring_field_decode_failure_witness :
    isBadField ("impact", JValue.jobj [("a", JValue.jnum 1)]) = true ∧
    ParseResult (.ok (.jobj [("root_cause", .jstr "x"),
        ("impact", .jobj [("a", .jnum 1)]), ("suggested_action", .jstr "y")])) =
      .error (.malformedOutput
        ("response is not valid JSON: " ++ ("failed to parse explain result: " ++
          "cannot unmarshal value into field impact of type string"))) := by
  obtain ⟨m, hdec, hpr⟩ := C1_nonstring_field_decode_failure
    [("root_cause", .jstr "x"), ("impact", .jobj [("a", .jnum 1)]),
     ("suggested_action", .jstr "y")]
    ⟨("impact", .jobj [("a", .jnum 1)]), by simp, rfl⟩
  have hm : m = "cannot unmarshal value into field impact of type string" := by
    have h2 : Except.error (α := ExplainResult) m =
        Except.error "cannot unmarshal value into field impact of type string" := by
      rw [← hdec]
      rfl
    injection h2
  refine ⟨rfl, ?_⟩
  rw [← hm]
  exact hpr

/-- C1 as stated is false for `null`: with `null` in place of `impact`, the
decode step **succeeds** (Go's decoder ignores JSON null), and validation
fails later with `MissingField`, not with a decode failure. -/
theorem C1_counterexample :
    decodeExplainResult (.jobj [("root_cause", .jstr "x"), ("impact", .jnull),
      ("suggested_action", .jstr "y")]) = .ok ⟨"x", "", "y"⟩ ∧
    ParseResult (.ok (.jobj [("root_cause", .jstr "x"), ("impact", .jnull),
      ("suggested_action", .jstr "y")])) = .error (.missingField "impact") :=
  ⟨rfl, rfl⟩

/-! ## C2 — the empty/missing-field check and result totality -/

theorem decodeStep_preserves_root_cause (st : ExplainResult × Option String)
    (f : String × JValue) (h : keyMatches f.1 "root_cause" = false) :
    ((decodeStep st f).1).root_cause = st.1.root_cause := by
  obtain ⟨r, e⟩ := st
  obtain ⟨k, v⟩ := f
  simp only [decodeStep]
  by_cases h2 : keyMatches k "impact" <;> by_cases h3 : keyMatches k "suggested_action" <;>
    cases v <;> simp_all

theorem decodeStep_preserves_impact (st : ExplainResult × Option String)
    (f : String × JValue) (h : keyMatches f.1 "impact" = false) :
    ((decodeStep st f).1).impact = st.1.impact := by
  obtain ⟨r, e⟩ := st
  obtain ⟨k, v⟩ := f
  simp only [decodeStep]
  by_cases h2 : keyMatches k "root_cause" <;> by_cases h3 : keyMatches k "suggested_action" <;>
    cases v <;> simp_all

theorem decodeStep_preserves_suggested_action (st : ExplainResult × Option String)
    (f : String × JValue) (h : keyMatches f.1 "suggested_action" = false) :
    ((decodeStep st f).1).suggested_action = st.1.suggested_action := by
  obtain ⟨r, e⟩ := st
  obtain ⟨k, v⟩ := f
  simp only [decodeStep]
  by_cases h2 : keyMatches k "root_cause" <;> by_cases h3 : keyMatches k "impact" <;>
    cases v <;> simp_all

theorem foldl_absent_root_cause (l : List (String × JValue))
    (st : ExplainResult × Option String)
    (habs : ∀ f ∈ l, keyMatches f.1 "root_cause" = false) :
    ((l.foldl decodeStep st).1).root_cause = st.1.root_cause := by
  induction l generalizing st with
  | nil => rfl
  | cons x xs ih =>
    simp only [List.foldl_cons]
    rw [ih _ fun f hf => habs f (List.mem_cons_of_mem x hf),
      decodeStep_preserves_root_cause st x (habs x (List.mem_cons_self x xs))]

theorem foldl_absent_impact (l : List (String × JValue))
    (st : ExplainResult × Option String)
    (habs : ∀ f ∈ l, keyMatches f.1 "impact" = false) :
    ((l.foldl decodeStep st).1).impact = st.1.impact := by
  induction l generalizing st with
  | nil => rfl
  | cons x xs ih =>
    simp only [List.foldl_cons]
    rw [ih _ fun f hf => habs f (List.mem_cons_of_mem x hf),
      decodeStep_preserves_impact st x (habs x (List.mem_cons_self x xs))]

theorem foldl_absent_suggested_action (l : List (String × JValue))
    (st : ExplainResult × Option String)
    (habs : ∀ f ∈ l, keyMatches f.1 "suggested_action" = false) :
    ((l.foldl decodeStep st).1).suggested_action = st.1.suggested_action := by
  induction l generalizing st with
  | nil => rfl
  | cons x xs ih =>
    simp only [List.foldl_cons]
    rw [ih _ fun f hf => habs f (List.mem_cons_of_mem x hf),
      decodeStep_preserves_suggested_action st x (habs x (List.mem_cons_self x xs))]

/-- C2: for any model text that decodes into the three-field shape,
validation returns `MissingField(name)` for the first field (in source
order) that decoded as the empty string — including fields absent from the
JSON object, i.e. with no key matching the field name exactly or
case-insensitively, which decode as empty (last conjunct) — and otherwise
the fully-populated result; the outcome is always the complete
`ExplainResult` or exactly one typed failure, never a partial object. -/
theorem C2_validation_totality (v : JValue) (r : ExplainResult)
    (hdec : decodeExplainResult v = .ok r) :
    (r.root_cause = "" → ParseResult (.ok v) = .error (.missingField "root_cause")) ∧
    (r.root_cause ≠ "" → r.impact = "" →
      ParseResult (.ok v) = .error (.missingField "impact")) ∧
    (r.root_cause ≠ "" → r.impact ≠ "" → r.suggested_action = "" →
      ParseResult (.ok v) = .error (.missingField "suggested_action")) ∧
    (r.root_cause ≠ "" → r.impact ≠ "" → r.suggested_action ≠ "" →
      ParseResult (.ok v) = .ok r) ∧
    (∀ fields, v = .jobj fields →
      ((∀ f ∈ fields, keyMatches f.1 "root_cause" = false) → r.root_cause = "") ∧
      ((∀ f ∈ fields, keyMatches f.1 "impact" = false) → r.impact = "") ∧
      ((∀ f ∈ fields, keyMatches f.1 "suggested_action" = false) →
        r.suggested_action = "")) := by
  have hpr : ParseExplainResult (.ok v) = .ok r := by
    simp only [ParseExplainResult, hdec]
  refine ⟨?_, ?_, ?_, ?_, ?_⟩
  · intro h1
    simp [ParseResult, hpr, h1]
  · intro h1 h2
    simp [ParseResult, hpr, h1, h2]
  · intro h1 h2 h3
    simp [ParseResult, hpr, h1, h2, h3]
  · intro h1 h2 h3
    simp [ParseResult, hpr, h1, h2, h3]
  · intro fields hv
    subst hv
    have hfold : r = (fields.foldl decodeStep (⟨"", "", ""⟩, none)).1 := by
      simp only [decodeExplainResult] at hdec
      cases hm : (fields.foldl decodeStep (⟨"", "", ""⟩, none)).2 with
      | some m => rw [hm] at hdec; exact absurd hdec (by simp)
      | none =>
        rw [hm] at hdec
        injection hdec with h'
        exact h'.symm
    refine ⟨?_, ?_, ?_⟩
    · intro habs
      rw [hfold, foldl_absent_root_cause fields _ habs]
    · intro habs
      rw [hfold, foldl_absent_impact fields _ habs]
    · intro habs
      rw [hfold, foldl_absent_suggested_action fields _ habs]

/-- Witness for C2 at the claim's two rejection examples: an empty `impact`
and an absent `suggested_action` both fail with the corresponding
`MissingField`. -/
theorem C2_validation_totality_witness :
    ParseResult (.ok (.jobj [("root_cause", .jstr "x"), ("impact", .jstr ""),
        ("suggested_action", .jstr "y")])) = .error (.missingField "impact") ∧
    ParseResult (.ok (.jobj [("root_cause", .jstr "x"), ("impact", .jstr "y")])) =
      .error (.missingField "suggested_action") :=
  ⟨(C2_validation_totality (.jobj [("root_cause", .jstr "x"), ("impact", .jstr ""),
      ("suggested_action", .jstr "y")]) ⟨"x", "", "y"⟩ rfl).2.1 (by decide) rfl,
   (C2_validation_totality (.jobj [("root_cause", .jstr "x"), ("impact", .jstr "y")])
      ⟨"x", "y", ""⟩ rfl).2.2.1 (by decide) (by decide) rfl⟩

/-! ## C9 — determinism of prompt composition

An `ExplainContext` embeds each span's tag *map* as a key/value list in one
iteration order; two runs of the Go code over identical inputs see the same
map in possibly different orders.  "Identical inputs" is therefore the
relation `CtxPerm`: equal everywhere except that corresponding tag lists are
permutations of each other. -/

/-- Same span context up to the iteration order of its tag map. -/
def SpanCtxPerm (a b : SpanContext) : Prop :=
  a.service = b.service ∧ a.operation = b.operation ∧ a.status = b.status ∧
    a.tags.Perm b.tags ∧ a.logs = b.logs

/-- Relation `SpanCtxPerm` lifted to the optional parent section. -/
def OptionSpanCtxPerm : Option SpanContext → Option SpanContext → Prop
  | none, none => True
  | some a, some b => SpanCtxPerm a b
  | _, _ => False

/-- Same `ExplainContext` up to tag-map iteration order. -/
def CtxPerm (c1 c2 : ExplainContext) : Prop :=
  SpanCtxPerm c1.targetSpan c2.targetSpan ∧
    OptionSpanCtxPerm c1.parentSpan c2.parentSpan ∧
    List.Forall₂ SpanCtxPerm c1.childSpans c2.childSpans

/-- Each of the three rendering buckets of a span's tags holds at most one
tag — the regime in which iteration order cannot show through. -/
def bucketsBounded (s : SpanContext) : Prop :=
  (s.tags.filter isErrorTag).length ≤ 1 ∧
    (s.tags.filter fun kv => !isErrorTag kv && isNumericTag kv).length ≤ 1 ∧
    (s.tags.filter fun kv => !isErrorTag kv && !isNumericTag kv).length ≤ 1

/-- Predicate `bucketsBounded` over every span section of a context. -/
def ctxBucketsBounded (c : ExplainContext) : Prop :=
  bucketsBounded c.targetSpan ∧
    (∀ p, c.parentSpan = some p → bucketsBounded p) ∧
    ∀ s ∈ c.childSpans, bucketsBounded s

/-- Equivalent-up-to-tag-order span contexts whose left member has bounded
buckets render identically. -/
def SpanCtxCompat (a b : SpanContext) : Prop :=
  SpanCtxPerm a b ∧ bucketsBounded a

theorem writeSpanContext_compat_eq {a b : SpanContext} (lbl : String)
    (h : SpanCtxCompat a b) : writeSpanContext a lbl = writeSpanContext b lbl := by
  obtain ⟨⟨hsvc, hop, hst, htags, hlogs⟩, hbe, hbn, hbo⟩ := h
  have hlen : a.tags.length = b.tags.length := htags.length_eq
  have he : a.tags.filter isErrorTag = b.tags.filter isErrorTag :=
    perm_eq_of_length_le_one (htags.filter _) hbe
  have hn : (a.tags.filter fun kv => !isErrorTag kv && isNumericTag kv) =
      (b.tags.filter fun kv => !isErrorTag kv && isNumericTag kv) :=
    perm_eq_of_length_le_one (htags.filter _) hbn
  have ho : (a.tags.filter fun kv => !isErrorTag kv && !isNumericTag kv) =
      (b.tags.filter fun kv => !isErrorTag kv && !isNumericTag kv) :=
    perm_eq_of_length_le_one (htags.filter _) hbo
  simp only [writeSpanContext, hsvc, hop, hst, hlogs, hlen, he, hn, ho]

theorem childBlocks_congr {l1 l2 : List SpanContext}
    (h : List.Forall₂ SpanCtxCompat l1 l2) :
    ∀ i, childBlocks i l1 = childBlocks i l2 := by
  induction h with
  | nil => intro i; rfl
  | cons hab htail ih =>
    intro i
    cases htail with
    | nil => simpa only [childBlocks] using writeSpanContext_compat_eq _ hab
    | cons hcd htail2 =>
      simp only [childBlocks]
      rw [writeSpanContext_compat_eq _ hab]
      have := ih (i + 1)
      simp only [childBlocks] at this
      rw [this]

theorem forall2_compat {l1 l2 : List SpanContext}
    (h : List.Forall₂ SpanCtxPerm l1 l2) (hb : ∀ s ∈ l1, bucketsBounded s) :
    List.Forall₂ SpanCtxCompat l1 l2 := by
  induction h with
  | nil => exact List.Forall₂.nil
  | cons hab htail ih =>
    exact List.Forall₂.cons ⟨hab, hb _ (List.mem_cons_self _ _)⟩
      (ih fun s hs => hb s (List.mem_cons_of_mem _ hs))

/-- C9 amended: prompt composition reads no clock and performs no external
reads — it is a function of `(ExplainContext, question)` *and* of the
iteration order Go's runtime picks for each span's tag map.  For identical
inputs (`CtxPerm`) the prompt text is byte-identical **provided** every
rendering bucket of every span holds at most one tag; with two tags in one
bucket the per-run map order changes the bytes (see the counterexample). -/
theorem C9_prompt_determinism (c1 c2 : ExplainContext) (q : String)
    (hperm : CtxPerm c1 c2) (hbound : ctxBucketsBounded c1) :
    buildPrompt c1 q = buildPrompt c2 q := by
  obtain ⟨htgt, hpar, hch⟩ := hperm
  obtain ⟨hbt, hbp, hbc⟩ := hbound
  have ht : writeSpanContext c1.targetSpan "Target" =
      writeSpanContext c2.targetSpan "Target" :=
    writeSpanContext_compat_eq _ ⟨htgt, hbt⟩
  have hp : (match c1.parentSpan with
      | some p => "=== PARENT SPAN (Caller Context) ===\n" ++ writeSpanContext p "Parent" ++ "\n"
      | none => "") =
      (match c2.parentSpan with
      | some p => "=== PARENT SPAN (Caller Context) ===\n" ++ writeSpanContext p "Parent" ++ "\n"
      | none => "") := by
    cases hp1 : c1.parentSpan with
    | none =>
      cases hp2 : c2.parentSpan with
      | none => rfl
      | some b => rw [hp1, hp2] at hpar; exact absurd hpar (by simp [OptionSpanCtxPerm])
    | some a =>
      cases hp2 : c2.parentSpan with
      | none => rw [hp1, hp2] at hpar; exact absurd hpar (by simp [OptionSpanCtxPerm])
      | some b =>
        rw [hp1, hp2] at hpar
        show "=== PARENT SPAN (Caller Context) ===\n" ++ writeSpanContext a "Parent" ++ "\n" =
          "=== PARENT SPAN (Caller Context) ===\n" ++ writeSpanContext b "Parent" ++ "\n"
        rw [writeSpanContext_compat_eq "Parent" ⟨hpar, hbp a hp1⟩]
  have hlen : c1.childSpans.length = c2.childSpans.length := hch.length_eq
  have hc : (if c1.childSpans.length > 0 then
      "=== CHILD SPANS (Downstream Calls) ===\n" ++ childBlocks 0 c1.childSpans ++ "\n"
      else "") =
      (if c2.childSpans.length > 0 then
      "=== CHILD SPANS (Downstream Calls) ===\n" ++ childBlocks 0 c2.childSpans ++ "\n"
      else "") := by
    rw [childBlocks_congr (forall2_compat hch hbc) 0, hlen]
  simp only [buildPrompt, ht, hp, hc]

/-- One tag in the error bucket and one in the numeric bucket, enumerated in
two different orders. -/
def cW1 : ExplainContext :=
  ⟨⟨"svc", "op", "ERROR", [("error.kind", "E"), ("timeout", "30s")], ["done"]⟩,
   none, []⟩

def cW2 : ExplainContext :=
  ⟨⟨"svc", "op", "ERROR", [("timeout", "30s"), ("error.kind", "E")], ["done"]⟩,
   none, []⟩

theorem C9_prompt_determinism_witness :
    cW1.targetSpan.tags ≠ cW2.targetSpan.tags ∧
    buildPrompt cW1 "why" = buildPrompt cW2 "why" := by
  refine ⟨by decide, ?_⟩
  exact C9_prompt_determinism cW1 cW2 "why"
    ⟨⟨rfl, rfl, rfl, by decide, rfl⟩, trivial, List.Forall₂.nil⟩
    ⟨⟨by decide, by decide, by decide⟩,
     fun p hp => Option.noConfusion hp,
     fun s hs => absurd hs (List.not_mem_nil s)⟩

/-- Two tags in the same (error) bucket, in the two orders Go's randomized
map iteration can produce. -/
def cE1 : ExplainContext :=
  ⟨⟨"svc", "op", "ERROR", [("error.kind", "K"), ("error.msg", "M")], ["boom failed"]⟩,
   none, []⟩

def cE2 : ExplainContext :=
  ⟨⟨"svc", "op", "ERROR", [("error.msg", "M"), ("error.kind", "K")], ["boom failed"]⟩,
   none, []⟩

theorem buildPrompt_cE1_eq : buildPrompt cE1 "q" =
    promptPreamble ++ ("Question: " ++ "q" ++ "\n\n") ++
      "=== TARGET SPAN (Error\x2fIssue) ===\n" ++ writeSpanContext cE1.targetSpan "Target" ++
      "\n" ++ "" ++ "" ++ promptAnalysisFocus := rfl

theorem buildPrompt_cE2_eq : buildPrompt cE2 "q" =
    promptPreamble ++ ("Question: " ++ "q" ++ "\n\n") ++
      "=== TARGET SPAN (Error\x2fIssue) ===\n" ++ writeSpanContext cE2.targetSpan "Target" ++
      "\n" ++ "" ++ "" ++ promptAnalysisFocus := rfl

theorem wsc_cE1_eval : writeSpanContext cE1.targetSpan "Target" =
    "Target Span:\n  Service: svc\n  Operation: op\n  Status: ERROR\n  Tags/Attributes:\n    [ERROR DETAILS]:\n      error.kind: K\n      error.msg: M\n  Logs/Events:\n    [ERROR] boom failed\n" := by
  rfl

theorem wsc_cE2_eval : writeSpanContext cE2.targetSpan "Target" =
    "Target Span:\n  Service: svc\n  Operation: op\n  Status: ERROR\n  Tags/Attributes:\n    [ERROR DETAILS]:\n      error.msg: M\n      error.kind: K\n  Logs/Events:\n    [ERROR] boom failed\n" := by
  rfl

/-- C9 as stated is false: `cE1` and `cE2` are the *same*
`(ExplainContext, question)` input — their tag lists are permutations of one
single two-entry tag map, the two orders Go's per-run randomized map
iteration yields — yet the composed prompts differ byte-wise (the two
`[ERROR DETAILS]` lines swap).  Prompt text is therefore not stable across
runs on identical inputs. -/
theorem C9_counterexample :
    CtxPerm cE1 cE2 ∧ buildPrompt cE1 "q" ≠ buildPrompt cE2 "q" := by
  refine ⟨⟨⟨rfl, rfl, rfl, by decide, rfl⟩, trivial, List.Forall₂.nil⟩, ?_⟩
  intro h
  rw [buildPrompt_cE1_eq, buildPrompt_cE2_eq] at h
  have hd := congrArg String.data h
  simp only [String.data_append, List.append_assoc] at hd
  have h1 := List.append_cancel_left hd
  have h2 := List.append_cancel_left h1
  have h3 := List.append_cancel_left h2
  have h4 := List.append_cancel_left h3
  have h5 := List.append_cancel_left h4
  have h6 := List.append_cancel_right h5
  have hw : writeSpanContext cE1.targetSpan "Target" =
      writeSpanContext cE2.targetSpan "Target" := congrArg String.mk h6
  rw [wsc_cE1_eval, wsc_cE2_eval] at hw
  exact absurd hw (by decide)

end SpanExplainer
